import Mathlib

/-!
Verification of the GA4 MCP server (GA-mcp repository).

This file gives a shallow embedding, in Lean 4, of the pure computational
core of the repository's three server variants:

* `src/unnamed/part_000` (two identical copies of one file, referred to
  below as the "part_000 variant"): `toNumber`, `safePctChange`,
  `computePreviousPeriod`, `formatErr`, `runReportKV`'s response pivot,
  the `ga_channel_summary_compare` merge, the `ga_daily_anomalies`
  detector, the `ga_funnel_basic` step compiler, and `isAuthorized`;
* `src/server.mjs`: its `isAuthorized` variant and the `ga_funnel_basic`
  step compiler (identical compile logic to part_000);
* `src/server.js`: the `/mcp` POST dispatcher (flat and JSON-RPC call
  shapes) and `tool_channel_summary`'s rows/totals computation.

Modelling conventions:

* JavaScript numbers are modelled as `ℚ`.  `Number(s)` applied to a string
  is kept abstract as a parameter `jsNum? : String → Option ℚ` (`none`
  standing for a non-finite result) or `jsNum : String → ℚ` where the
  surrounding code applies no finiteness guard; no theorem below depends
  on the behaviour of this parameter.  IEEE-754 rounding of integers at
  or beyond 2^53 is not modelled.
* JavaScript strings are Lean `String`s (lists of characters); `.length`
  and `.slice` thus count characters.
* A JavaScript object built by successive `out[name] = v` assignments is
  an association list (`Record`) together with `jsSet`, which updates an
  existing key in place and otherwise appends — JS insertion-order
  semantics.
* Optional / possibly-`undefined` values are `Option`s; JS string
  truthiness (`undefined` and `""` are falsy) is modelled explicitly.
-/

/-- A JSON-ish value stored in a pivoted report record: GA4 dimension
values are strings, metric values are numbers. -/
inductive GAValue where
  | str (s : String)
  | num (q : ℚ)
deriving DecidableEq, Repr

/-- A pivoted report row: a JS object modelled as an insertion-ordered
association list. -/
abbrev Record := List (String × GAValue)

/-- JS object assignment `o[k] = v`: updates the value of an existing key
in place (keeping its position), otherwise appends the new entry. -/
def jsSet (o : Record) (k : String) (v : GAValue) : Record :=
  if o.any (fun p => p.1 = k) then
    o.map (fun p => if p.1 = k then (k, v) else p)
  else o ++ [(k, v)]

/-- JS property read `o[k]` on a record: `none` models `undefined`. -/
def jsGet (o : Record) (k : String) : Option GAValue :=
  (o.find? (fun p => p.1 = k)).map Prod.snd

/-- Function `toNumber` from part_000: `null`/`undefined` become `0`, and a string
whose `Number(...)` image is non-finite also becomes `0`.  The abstract
parse `jsNum?` returns `none` exactly when `Number` yields a non-finite
value. -/
def toNumber (jsNum? : String → Option ℚ) : Option String → ℚ
  | none => 0
  | some s => (jsNum? s).getD 0

/-- One raw row of a GA4 `runReport` response: the two parallel value
lists; each cell's `value` field may be absent (`none`).  An absent list
behaves like `[]` under `?.[i]` access and is modelled as `[]`. -/
structure GARow where
  dimensionValues : List (Option String)
  metricValues : List (Option String)
deriving DecidableEq, Repr

/-- A raw GA4 `runReport` response: parallel header lists (each header's
`name` may be absent) and the row list. -/
structure RunReportResponse where
  dimensionHeaders : List (Option String)
  metricHeaders : List (Option String)
  rows : List GARow
deriving DecidableEq, Repr

/-- Read `r.dimensionValues?.[i]?.value ?? ""`. -/
def dimValueAt (r : GARow) (i : ℕ) : String :=
  ((r.dimensionValues.get? i).join).getD ""

/-- Read `r.metricValues?.[i]?.value` (before `toNumber`). -/
def metRawAt (r : GARow) (i : ℕ) : Option String :=
  (r.metricValues.get? i).join

/-- The pivot of one response row in `runReportKV` (part_000): the two
`forEach` loops over the dimension and metric headers, writing into a
fresh object with `jsSet`. -/
def pivotRow (jsNum? : String → Option ℚ) (dimHeaders metHeaders : List String)
    (r : GARow) : Record :=
  let o1 := dimHeaders.enum.foldl
    (fun o p => jsSet o p.2 (.str (dimValueAt r p.1))) ([] : Record)
  metHeaders.enum.foldl
    (fun o p => jsSet o p.2 (.num (toNumber jsNum? (metRawAt r p.1)))) o1

/-- The same row as a plain zipped association list (no JS-object key
deduplication); `pivotRow` agrees with this whenever the headers are
pairwise distinct (`pivotRow_eq_pivotEntries`). -/
def pivotEntries (jsNum? : String → Option ℚ) (dimHeaders metHeaders : List String)
    (r : GARow) : Record :=
  dimHeaders.enum.map (fun p => (p.2, GAValue.str (dimValueAt r p.1)))
    ++ metHeaders.enum.map (fun p => (p.2, GAValue.num (toNumber jsNum? (metRawAt r p.1))))

/-- Result shape of `runReportKV`: pivoted rows plus the header name
lists. -/
structure KVResult where
  rows : List Record
  dimHeaders : List String
  metHeaders : List String
deriving DecidableEq, Repr

/-- Header-name extraction `(resp.dimensionHeaders ?? []).map(h => h.name || "")`. -/
def headerNames (hs : List (Option String)) : List String :=
  hs.map (fun h => h.getD "")

/-- The response-processing part of `runReportKV` (part_000): pivot the
column-oriented response into keyed records.  The backend call itself is
I/O and is represented by its response `resp`. -/
def runReportKV (jsNum? : String → Option ℚ) (resp : RunReportResponse) : KVResult :=
  let dimH := headerNames resp.dimensionHeaders
  let metH := headerNames resp.metricHeaders
  ⟨resp.rows.map (pivotRow jsNum? dimH metH), dimH, metH⟩

section PivotLemmas

theorem jsSet_of_not_mem (o : Record) (k : String) (v : GAValue)
    (h : ∀ p ∈ o, p.1 ≠ k) : jsSet o k v = o ++ [(k, v)] := by
  unfold jsSet
  rw [if_neg]
  intro hc
  rw [List.any_eq_true] at hc
  obtain ⟨p, hp, hpk⟩ := hc
  exact h p hp (by simpa using hpk)

theorem foldl_jsSet (entries : List (String × GAValue)) :
    ∀ o : Record, (entries.map Prod.fst).Nodup →
      (∀ e ∈ entries, ∀ p ∈ o, p.1 ≠ e.1) →
      entries.foldl (fun acc e => jsSet acc e.1 e.2) o = o ++ entries := by
  induction entries with
  | nil => intro o _ _; simp
  | cons e es ih =>
    intro o hnd hdisj
    simp only [List.map_cons, List.nodup_cons] at hnd
    have h1 : jsSet o e.1 e.2 = o ++ [e] := by
      have := jsSet_of_not_mem o e.1 e.2 (fun p hp => hdisj e (by simp) p hp)
      simpa using this
    simp only [List.foldl_cons, h1]
    rw [ih (o ++ [e]) hnd.2]
    · simp
    · intro e' he' p hp
      rcases List.mem_append.1 hp with hp | hp
      · exact hdisj e' (by simp [he']) p hp
      · simp only [List.mem_singleton] at hp
        subst hp
        intro hfsteq
        exact hnd.1 (hfsteq ▸ List.mem_map_of_mem Prod.fst he')

theorem pivotEntries_map_fst (jsNum? : String → Option ℚ)
    (dimHeaders metHeaders : List String) (r : GARow) :
    (pivotEntries jsNum? dimHeaders metHeaders r).map Prod.fst
      = dimHeaders ++ metHeaders := by
  unfold pivotEntries
  simp only [List.map_append, List.map_map]
  congr 1
  · have : (Prod.fst ∘ fun p : ℕ × String => (p.2, GAValue.str (dimValueAt r p.1)))
        = Prod.snd := rfl
    rw [this, List.enum_map_snd]
  · have : (Prod.fst ∘ fun p : ℕ × String =>
        (p.2, GAValue.num (toNumber jsNum? (metRawAt r p.1)))) = Prod.snd := rfl
    rw [this, List.enum_map_snd]

theorem pivotRow_eq_pivotEntries (jsNum? : String → Option ℚ)
    (dimHeaders metHeaders : List String) (r : GARow)
    (hnd : (dimHeaders ++ metHeaders).Nodup) :
    pivotRow jsNum? dimHeaders metHeaders r
      = pivotEntries jsNum? dimHeaders metHeaders r := by
  unfold pivotRow pivotEntries
  rw [← List.foldl_map (fun p : ℕ × String => (p.2, GAValue.str (dimValueAt r p.1)))
        (fun acc e => jsSet acc e.1 e.2),
      ← List.foldl_map (fun p : ℕ × String =>
          (p.2, GAValue.num (toNumber jsNum? (metRawAt r p.1))))
        (fun acc e => jsSet acc e.1 e.2),
      ← List.foldl_append]
  set entries := dimHeaders.enum.map (fun p => (p.2, GAValue.str (dimValueAt r p.1)))
      ++ metHeaders.enum.map (fun p =>
          (p.2, GAValue.num (toNumber jsNum? (metRawAt r p.1)))) with hentries
  have hfst : entries.map Prod.fst = dimHeaders ++ metHeaders := by
    rw [hentries]
    exact pivotEntries_map_fst jsNum? dimHeaders metHeaders r
  have := foldl_jsSet entries [] (by rw [hfst]; exact hnd) (by simp)
  simpa using this

end PivotLemmas

/-- C1, packaged: the pivot in `runReportKV` keeps exactly one output
record per response row; each record's key sequence is exactly the
dimension headers followed by the metric headers (so field presence is
determined by the headers alone, independent of the row's values, with
`|dimensions| + |metrics|` fields in total), and every record is the
plain positional zip of headers to values, in which a missing or null
dimension cell appears as the empty string under its header's key. -/
def PivotSpec (jsNum? : String → Option ℚ) (resp : RunReportResponse) : Prop :=
  (runReportKV jsNum? resp).rows.length = resp.rows.length ∧
  (runReportKV jsNum? resp).rows
    = resp.rows.map (pivotEntries jsNum? (headerNames resp.dimensionHeaders)
        (headerNames resp.metricHeaders)) ∧
  (∀ rec ∈ (runReportKV jsNum? resp).rows,
    rec.map Prod.fst
        = headerNames resp.dimensionHeaders ++ headerNames resp.metricHeaders ∧
    rec.length = resp.dimensionHeaders.length + resp.metricHeaders.length)

/-- C1: for every backend report response whose (name-extracted) headers
are pairwise distinct, the `runReportKV` pivot emits exactly one record
per response row, and each record carries exactly one field per dimension
header plus one per metric header — `|dimensions| + |metrics|` fields —
with field presence independent of the values; a missing/null dimension
value becomes the empty string under its header, never an absent field. -/
theorem runReportKV_pivot_spec (jsNum? : String → Option ℚ)
    (resp : RunReportResponse)
    (hnd : (headerNames resp.dimensionHeaders
        ++ headerNames resp.metricHeaders).Nodup) :
    PivotSpec jsNum? resp := by
  have hrows : (runReportKV jsNum? resp).rows
      = resp.rows.map (pivotEntries jsNum? (headerNames resp.dimensionHeaders)
          (headerNames resp.metricHeaders)) := by
    unfold runReportKV
    simp only [List.map_inj_left]
    intro r _
    exact pivotRow_eq_pivotEntries _ _ _ r hnd
  refine ⟨by rw [hrows]; simp [runReportKV], hrows, ?_⟩
  intro rec hrec
  rw [hrows] at hrec
  obtain ⟨r, _, hr⟩ := List.mem_map.1 hrec
  subst hr
  refine ⟨pivotEntries_map_fst _ _ _ r, ?_⟩
  unfold pivotEntries
  simp [headerNames, List.enum_length]

/-- Concrete instantiation of C1: a two-row response (one row with a
null dimension cell and a missing metric cell), with distinct headers. -/
theorem runReportKV_pivot_spec_witness :
    (headerNames [some "d1", none] ++ headerNames [some "m1"]).Nodup ∧
    PivotSpec (fun _ => none)
      ⟨[some "d1", none], [some "m1"],
        [⟨[some "a", none], [some "5"]⟩, ⟨[], []⟩]⟩ :=
  ⟨by decide,
   runReportKV_pivot_spec (fun _ => none)
     ⟨[some "d1", none], [some "m1"],
       [⟨[some "a", none], [some "5"]⟩, ⟨[], []⟩]⟩ (by decide)⟩

/-- The seven characters of the literal suffix in the part_000 regex
`^(\d+)daysAgo$`. -/
def daysAgoSuffix : List Char := "daysAgo".data

/-- Numeric value of a decimal digit string, as JS `Number` computes it on
the digit group matched by `^(\d+)daysAgo$` (exact; IEEE rounding beyond
2^53 is not modelled). -/
def digitsVal (ds : List Char) : ℕ :=
  ds.foldl (fun a c => 10 * a + (c.toNat - 48)) 0

/-- Match `String(startDate).match(/^(\d+)daysAgo$/)` on a character list:
`some n` with the digit group's value when the whole string is one or
more digits followed by exactly `daysAgo`, else `none`. -/
def matchDaysAgoL (cs : List Char) : Option ℕ :=
  if 8 ≤ cs.length ∧ cs.drop (cs.length - 7) = daysAgoSuffix ∧
      (cs.take (cs.length - 7)).all Char.isDigit then
    some (digitsVal (cs.take (cs.length - 7)))
  else none

/-- The regex match on a `String`. -/
def matchDaysAgo (s : String) : Option ℕ := matchDaysAgoL s.data

theorem matchDaysAgo_mk (l : List Char) : matchDaysAgo ⟨l⟩ = matchDaysAgoL l := rfl

/-- A `{startDate, endDate}` date-range object. -/
structure Period where
  startDate : String
  endDate : String
deriving DecidableEq, Repr

/-- Function `computePreviousPeriod` from part_000: previous-period inference for
`"NdaysAgo"`-style start dates with `"yesterday"`/`"today"` end dates;
`none` models the JS `null` (not resolvable). -/
def computePreviousPeriod (startDate endDate : String) : Option Period :=
  match matchDaysAgo startDate with
  | none => none
  | some n =>
    if endDate = "yesterday" then
      some ⟨toString (2 * (n : ℤ)) ++ "daysAgo", toString ((n : ℤ) + 1) ++ "daysAgo"⟩
    else if endDate = "today" then
      some ⟨toString (2 * (n : ℤ) - 1) ++ "daysAgo", toString (n : ℤ) ++ "daysAgo"⟩
    else none

/-- Outcome of the period check at the top of the
`ga_channel_summary_compare` handler: a `null` previous period is turned
into an explicit error result before any backend call. -/
inductive CompareOutcome where
  | notResolvableError
  | proceed (p : Period)
deriving DecidableEq, Repr

/-- The `if (!prevRange) return jsonText({... error ...})` guard of
`ga_channel_summary_compare`. -/
def channelComparePeriodCheck (startDate endDate : String) : CompareOutcome :=
  match computePreviousPeriod startDate endDate with
  | none => .notResolvableError
  | some p => .proceed p

theorem matchDaysAgoL_concat (ds : List Char) (h1 : ds ≠ [])
    (h2 : ∀ c ∈ ds, c.isDigit = true) :
    matchDaysAgoL (ds ++ daysAgoSuffix) = some (digitsVal ds) := by
  have hlen : (ds ++ daysAgoSuffix).length = ds.length + 7 := by
    simp [daysAgoSuffix]
  have hk : (ds ++ daysAgoSuffix).length - 7 = ds.length := by omega
  have hpos : 1 ≤ ds.length := List.length_pos.2 h1
  have hall : ds.all Char.isDigit = true := by
    rw [List.all_eq_true]
    intro c hc
    simpa using h2 c hc
  unfold matchDaysAgoL
  rw [hk, List.take_left, List.drop_left, if_pos ⟨by omega, rfl, hall⟩]

/-- C2 (amended), packaged: for a start date that is a nonempty digit
string `ds` (value `N = digitsVal ds`) followed by `daysAgo`, end date
`"yesterday"` yields `[2N daysAgo, (N+1) daysAgo]` and end date `"today"`
yields `[(2N-1) daysAgo, N daysAgo]` (signed arithmetic, so `N = 0` with
`"today"` produces `-1daysAgo` exactly as the JS template literal does);
any `(s, e)` whose start date fails the regex or whose end date is
neither literal resolves to `none`, which the
`ga_channel_summary_compare` handler surfaces as an explicit
not-resolvable error instead of comparing against a guessed period. -/
def PrevPeriodSpec (ds : List Char) (s e : String) : Prop :=
  computePreviousPeriod ⟨ds ++ daysAgoSuffix⟩ "yesterday"
    = some ⟨toString (2 * (digitsVal ds : ℤ)) ++ "daysAgo",
            toString ((digitsVal ds : ℤ) + 1) ++ "daysAgo"⟩ ∧
  computePreviousPeriod ⟨ds ++ daysAgoSuffix⟩ "today"
    = some ⟨toString (2 * (digitsVal ds : ℤ) - 1) ++ "daysAgo",
            toString (digitsVal ds : ℤ) ++ "daysAgo"⟩ ∧
  computePreviousPeriod s e = none ∧
  channelComparePeriodCheck s e = .notResolvableError

/-- C2 (amended): `computePreviousPeriod` resolves exactly the inputs
whose start date matches `^(\d+)daysAgo$` (any digit string, zero and
leading zeros included) and whose end date is literally `"yesterday"` or
`"today"`, with the arithmetic of `PrevPeriodSpec`; every other
combination yields `none` and the calling handler surfaces that as an
explicit error. -/
theorem computePreviousPeriod_spec (ds : List Char) (s e : String)
    (h1 : ds ≠ []) (h2 : ∀ c ∈ ds, c.isDigit = true)
    (h3 : matchDaysAgo s = none ∨ (e ≠ "yesterday" ∧ e ≠ "today")) :
    PrevPeriodSpec ds s e := by
  have hmatch : matchDaysAgo ⟨ds ++ daysAgoSuffix⟩ = some (digitsVal ds) := by
    rw [matchDaysAgo_mk]
    exact matchDaysAgoL_concat ds h1 h2
  have hnone : computePreviousPeriod s e = none := by
    rcases h3 with h3 | ⟨hy, ht⟩
    · simp [computePreviousPeriod, h3]
    · cases hm : matchDaysAgo s with
      | none => simp [computePreviousPeriod, hm]
      | some n => simp [computePreviousPeriod, hm, hy, ht]
  refine ⟨?_, ?_, hnone, ?_⟩
  · simp [computePreviousPeriod, hmatch]
  · simp [computePreviousPeriod, hmatch]
  · simp [channelComparePeriodCheck, hnone]

/-- C2 counterexample to the claim as stated: `"0daysAgo"` is not of the
form `"NdaysAgo"` for any positive integer `N`, yet the resolver does not
return the not-resolvable result — the regex `\d+` accepts `0`, giving
`{startDate: "0daysAgo", endDate: "1daysAgo"}`. -/
theorem computePreviousPeriod_zero_counterexample :
    computePreviousPeriod "0daysAgo" "yesterday"
      = some ⟨"0daysAgo", "1daysAgo"⟩ := by decide

/-- Concrete instantiation of the amended C2 at `N = 7` and at the
non-resolvable pair `("2025-01-01", "2024-01-01")`. -/
theorem computePreviousPeriod_spec_witness :
    (['7'] : List Char) ≠ [] ∧ PrevPeriodSpec ['7'] "2025-01-01" "2024-01-01" :=
  ⟨by decide,
   computePreviousPeriod_spec ['7'] "2025-01-01" "2024-01-01"
     (by decide) (by decide) (Or.inl (by decide))⟩

/-- JS `Array.prototype.slice(a, b)` (elements `[a, b)`), for the index
ranges used by the detector (`0 ≤ a ≤ b`). -/
def jsSlice (l : List ℚ) (a b : ℕ) : List ℚ := (l.take b).drop a

/-- Function `mean` from `ga_daily_anomalies`: `arr.length ? sum/length : 0`. -/
def jsMean (l : List ℚ) : ℚ :=
  if l.length = 0 then 0 else l.sum / (l.length : ℚ)

/-- The radicand of `std` from `ga_daily_anomalies`: the sample variance
`sum((x-mu)^2)/(len-1)`, `0` when fewer than two points.  The source's
`std` is its square root; since the detector only tests `sd === 0` and
`|(v-mu)/sd| >= t`, both tests are carried out on the variance (see
`zCondB_iff_real` and `jsVarSample_nonneg` for the equivalence). -/
def jsVarSample (l : List ℚ) (mu : ℚ) : ℚ :=
  if l.length < 2 then 0
  else ((l.map (fun x => (x - mu) ^ 2)).sum) / ((l.length : ℚ) - 1)

/-- The detector's threshold test `|(v - mu)/sd| >= t` expressed on the
variance `sd2 = sd^2`: always true for a non-positive threshold, else
`t^2 * sd2 ≤ (v - mu)^2`.  For `sd2 > 0` this coincides with the
square-root formulation (`zCondB_iff_real`). -/
def zCondB (v mu sd2 t : ℚ) : Bool :=
  if t ≤ 0 then true else decide (t ^ 2 * sd2 ≤ (v - mu) ^ 2)

/-- One emitted anomaly record; `idx` stands for the record's position
(hence its date) in the chronologically sorted series, `baselineVar` for
the square of the reported `baselineStd`, and `spike` for
`direction === "spike"` (`false` is `"drop"`). -/
structure Anomaly where
  idx : ℕ
  value : ℚ
  baselineMean : ℚ
  baselineVar : ℚ
  spike : Bool
deriving DecidableEq, Repr

/-- Window `series.slice(i - windowDays, i)`: the trailing baseline window. -/
def baselineWindow (series : List ℚ) (windowDays i : ℕ) : List ℚ :=
  jsSlice series (i - windowDays) i

/-- One iteration of the `ga_daily_anomalies` loop body at index `i`:
`some` exactly when the point is pushed onto `anomalies`. -/
def detectAt (series : List ℚ) (windowDays : ℕ) (zThreshold : ℚ) (i : ℕ) :
    Option Anomaly :=
  if i < windowDays then none
  else if jsVarSample (baselineWindow series windowDays i)
      (jsMean (baselineWindow series windowDays i)) = 0 then none
  else if zCondB ((series.get? i).getD 0)
      (jsMean (baselineWindow series windowDays i))
      (jsVarSample (baselineWindow series windowDays i)
        (jsMean (baselineWindow series windowDays i))) zThreshold then
    some ⟨i, (series.get? i).getD 0,
      jsMean (baselineWindow series windowDays i),
      jsVarSample (baselineWindow series windowDays i)
        (jsMean (baselineWindow series windowDays i)),
      decide (jsMean (baselineWindow series windowDays i)
        < (series.get? i).getD 0)⟩
  else none

/-- The `ga_daily_anomalies` detector: the `for (let i = windowDays;
i < series.length; i++)` loop collecting pushed records in order. -/
def detectAnomalies (series : List ℚ) (windowDays : ℕ) (zThreshold : ℚ) :
    List Anomaly :=
  (List.range series.length).filterMap (detectAt series windowDays zThreshold)

section DetectorLemmas

theorem detectAt_eq_some (series : List ℚ) (w : ℕ) (t : ℚ) (i : ℕ) (a : Anomaly)
    (h : detectAt series w t i = some a) :
    a.idx = i ∧ w ≤ i ∧
    a.value = (series.get? i).getD 0 ∧
    a.baselineMean = jsMean (baselineWindow series w i) ∧
    a.baselineVar = jsVarSample (baselineWindow series w i) a.baselineMean ∧
    a.baselineVar ≠ 0 ∧
    zCondB a.value a.baselineMean a.baselineVar t = true ∧
    (a.spike = true ↔ a.baselineMean < a.value) := by
  unfold detectAt at h
  split_ifs at h with h1 h2 h3
  all_goals first
    | exact Option.noConfusion h
    | (obtain rfl := Option.some_inj.1 h
       exact ⟨rfl, not_lt.1 h1, rfl, rfl, rfl, h2, by simpa using h3, by simp⟩)

theorem detectAt_fires (series : List ℚ) (w : ℕ) (t : ℚ) (i : ℕ)
    (h1 : w ≤ i)
    (h2 : jsVarSample (baselineWindow series w i)
      (jsMean (baselineWindow series w i)) ≠ 0)
    (h3 : zCondB ((series.get? i).getD 0) (jsMean (baselineWindow series w i))
      (jsVarSample (baselineWindow series w i)
        (jsMean (baselineWindow series w i))) t = true) :
    detectAt series w t i
      = some ⟨i, (series.get? i).getD 0, jsMean (baselineWindow series w i),
          jsVarSample (baselineWindow series w i)
            (jsMean (baselineWindow series w i)),
          decide (jsMean (baselineWindow series w i)
            < (series.get? i).getD 0)⟩ := by
  unfold detectAt
  rw [if_neg (not_lt.2 h1), if_neg h2, if_pos h3]

theorem jsMean_replicate (m : ℕ) (c : ℚ) (h : m ≠ 0) :
    jsMean (List.replicate m c) = c := by
  unfold jsMean
  rw [if_neg (by simpa using h), List.sum_replicate, List.length_replicate,
    nsmul_eq_mul, mul_div_cancel_left₀ c (Nat.cast_ne_zero.2 h)]

theorem jsVarSample_replicate_mean (m : ℕ) (c : ℚ) :
    jsVarSample (List.replicate m c) (jsMean (List.replicate m c)) = 0 := by
  rcases Nat.lt_or_ge m 2 with hm | hm
  · unfold jsVarSample
    rw [if_pos (by simpa using hm)]
  · have h0 : m ≠ 0 := by omega
    rw [jsMean_replicate m c h0]
    unfold jsVarSample
    rw [if_neg (by simpa using by omega)]
    simp

theorem baselineWindow_replicate (n : ℕ) (c : ℚ) (w i : ℕ) :
    baselineWindow (List.replicate n c) w i
      = List.replicate (min i n - (i - w)) c := by
  simp [baselineWindow, jsSlice, List.take_replicate, List.drop_replicate]

theorem detectAt_replicate (n : ℕ) (c : ℚ) (w : ℕ) (t : ℚ) (i : ℕ) :
    detectAt (List.replicate n c) w t i = none := by
  unfold detectAt
  rw [baselineWindow_replicate, jsVarSample_replicate_mean]
  simp

theorem filter_filterMap' (f : α → Option β) (p : β → Bool) (l : List α) :
    (l.filterMap f).filter p = l.filterMap (fun a => (f a).filter p) := by
  induction l with
  | nil => simp
  | cons a l ih =>
    cases h : f a with
    | none => simp [List.filterMap_cons, h, ih, Option.filter]
    | some b =>
      cases hp : p b <;>
        simp [List.filterMap_cons, h, ih, Option.filter, List.filter_cons, hp]

theorem filterMap_range_eq_single (g : ℕ → Option β) (n i₀ : ℕ)
    (h : ∀ i, i ≠ i₀ → g i = none) :
    (List.range n).filterMap g = if i₀ < n then (g i₀).toList else [] := by
  induction n with
  | zero => simp
  | succ n ih =>
    rw [List.range_succ, List.filterMap_append, ih]
    by_cases he : i₀ = n
    · subst he
      rw [if_neg (lt_irrefl i₀), List.nil_append, if_pos (Nat.lt_succ_self i₀)]
      cases hg : g i₀ <;> simp [List.filterMap_cons, hg]
    · have hgn : g n = none := h n (by omega)
      rw [show List.filterMap g [n] = [] by simp [List.filterMap_cons, hgn],
        List.append_nil]
      by_cases hi : i₀ < n
      · rw [if_pos hi, if_pos (by omega)]
      · rw [if_neg hi, if_neg (by omega)]

end DetectorLemmas

theorem detectAt_take_agree (series s₂ : List ℚ) (w : ℕ) (t : ℚ) (i₀ : ℕ)
    (h3 : series.take (i₀ + 1) = s₂.take (i₀ + 1)) :
    detectAt series w t i₀ = detectAt s₂ w t i₀ := by
  have htake : series.take i₀ = s₂.take i₀ := by
    have := congrArg (List.take i₀) h3
    rwa [List.take_take, List.take_take, min_eq_left (Nat.le_succ i₀)] at this
  have hwin : baselineWindow series w i₀ = baselineWindow s₂ w i₀ := by
    unfold baselineWindow jsSlice
    rw [htake]
  have hget : series.get? i₀ = s₂.get? i₀ := by
    have h4 := congrArg (fun l : List ℚ => l.get? i₀) h3
    simpa [List.get?_take (Nat.lt_succ_self i₀)] using h4
  unfold detectAt
  rw [hwin, hget]

theorem detect_filter_eq (series s₂ : List ℚ) (w : ℕ) (t : ℚ) (i₀ : ℕ)
    (h1 : i₀ < series.length) (h2 : i₀ < s₂.length)
    (h3 : series.take (i₀ + 1) = s₂.take (i₀ + 1)) :
    (detectAnomalies series w t).filter (fun b => b.idx == i₀)
      = (detectAnomalies s₂ w t).filter (fun b => b.idx == i₀) := by
  have hnone : ∀ (l : List ℚ) (i : ℕ), i ≠ i₀ →
      (detectAt l w t i).filter (fun b => b.idx == i₀) = none := by
    intro l i hne
    cases hd : detectAt l w t i with
    | none => simp [Option.filter]
    | some a =>
      have hidx := (detectAt_eq_some l w t i a hd).1
      simp [Option.filter, hidx, hne]
  unfold detectAnomalies
  rw [filter_filterMap', filter_filterMap',
    filterMap_range_eq_single _ _ i₀ (hnone series),
    filterMap_range_eq_single _ _ i₀ (hnone s₂),
    if_pos h1, if_pos h2, detectAt_take_agree series s₂ w t i₀ h3]

/-- C3, packaged: (a) every emitted anomaly sits at an index `i` with
`windowDays ≤ i < len`, carries the value at `i` and the mean/variance of
the `windowDays` points strictly preceding `i`, has nonzero baseline
variance, passes the threshold test, and is a spike exactly when its
value exceeds the baseline mean (a drop otherwise); (b) every index in
that range whose baseline variance is nonzero and whose threshold test
passes is emitted; (c) a constant series yields no anomalies for any
threshold; (d) whether (and how) index `i₀` is flagged depends only on
the series up to and including `i₀` — no look-ahead. -/
def DetectSpec (series : List ℚ) (w : ℕ) (t : ℚ) : Prop :=
  (∀ a ∈ detectAnomalies series w t,
    w ≤ a.idx ∧ a.idx < series.length ∧
    a.value = (series.get? a.idx).getD 0 ∧
    a.baselineMean = jsMean (baselineWindow series w a.idx) ∧
    a.baselineVar = jsVarSample (baselineWindow series w a.idx) a.baselineMean ∧
    a.baselineVar ≠ 0 ∧
    zCondB a.value a.baselineMean a.baselineVar t = true ∧
    (a.spike = true ↔ a.baselineMean < a.value)) ∧
  (∀ i : ℕ, w ≤ i → i < series.length →
    jsVarSample (baselineWindow series w i) (jsMean (baselineWindow series w i)) ≠ 0 →
    zCondB ((series.get? i).getD 0) (jsMean (baselineWindow series w i))
      (jsVarSample (baselineWindow series w i)
        (jsMean (baselineWindow series w i))) t = true →
    ∃ a ∈ detectAnomalies series w t, a.idx = i) ∧
  (∀ (n : ℕ) (c : ℚ), detectAnomalies (List.replicate n c) w t = []) ∧
  (∀ (s₂ : List ℚ) (i₀ : ℕ), i₀ < series.length → i₀ < s₂.length →
    series.take (i₀ + 1) = s₂.take (i₀ + 1) →
    (detectAnomalies series w t).filter (fun b => b.idx == i₀)
      = (detectAnomalies s₂ w t).filter (fun b => b.idx == i₀))

/-- C3: for every chronologically ordered series, every `windowDays ≥ 1`
and every threshold, the `ga_daily_anomalies` detector evaluates exactly
the indices `windowDays ≤ i < len(series)`, uses as baseline the
`windowDays` points strictly preceding `i` (no look-ahead), emits a
point iff the baseline sample standard deviation is nonzero and
`|z| ≥ zThreshold`, with direction spike iff the z-score is positive;
a flat series produces no anomalies. -/
theorem ga_daily_anomalies_spec (series : List ℚ) (w : ℕ) (t : ℚ)
    (_hw : 1 ≤ w) : DetectSpec series w t := by
  refine ⟨?_, ?_, ?_, ?_⟩
  · intro a ha
    obtain ⟨i, hi, hd⟩ := List.mem_filterMap.1 ha
    obtain ⟨hidx, hwle, hv, hmu, hvar, hne, hz, hs⟩ :=
      detectAt_eq_some series w t i a hd
    subst hidx
    exact ⟨hwle, List.mem_range.1 hi, hv, hmu, hvar, hne, hz, hs⟩
  · intro i hwi hlen hvar hz
    exact ⟨_, List.mem_filterMap.2
      ⟨i, List.mem_range.2 hlen, detectAt_fires series w t i hwi hvar hz⟩, rfl⟩
  · intro n c
    exact List.filterMap_eq_nil_iff.2 (fun i _ => detectAt_replicate n c w t i)
  · intro s₂ i₀ h1 h2 h3
    exact detect_filter_eq series s₂ w t i₀ h1 h2 h3

/-- Concrete instantiation of C3: on the series `[0, 3, 0, 30]` with
`windowDays = 3` and `zThreshold = 1`, the detector fires exactly once,
at index 3, flagging the value 30 as a spike against baseline mean 1 and
sample variance 3. -/
theorem ga_daily_anomalies_spec_witness :
    1 ≤ 3 ∧ DetectSpec [0, 3, 0, 30] 3 1 ∧
    detectAnomalies [0, 3, 0, 30] 3 1 = [⟨3, 30, 1, 3, true⟩] :=
  ⟨by decide, ga_daily_anomalies_spec [0, 3, 0, 30] 3 1 (by decide), by
    have h1 : jsMean [0, 3, 0] = 1 := by norm_num [jsMean]
    have h2 : jsVarSample [0, 3, 0] 1 = 3 := by norm_num [jsVarSample]
    norm_num [detectAnomalies, List.range_succ, detectAt, baselineWindow,
      jsSlice, List.filterMap_append, List.filterMap_cons, h1, h2, zCondB]⟩

theorem jsVarSample_nonneg (l : List ℚ) (mu : ℚ) : 0 ≤ jsVarSample l mu := by
  unfold jsVarSample
  split_ifs with h
  · exact le_refl 0
  · apply div_nonneg
    · apply List.sum_nonneg
      intro x hx
      obtain ⟨y, _, rfl⟩ := List.mem_map.1 hx
      positivity
    · have h2 : (2:ℚ) ≤ (l.length : ℚ) := by exact_mod_cast not_lt.1 h
      linarith

/-- The source's `std` is `Math.sqrt` of the sample variance; its
`sd === 0` test agrees with the variance test used in `detectAt`. -/
theorem sqrt_jsVarSample_eq_zero_iff (l : List ℚ) (mu : ℚ) :
    Real.sqrt ((jsVarSample l mu : ℚ) : ℝ) = 0 ↔ jsVarSample l mu = 0 := by
  rw [Real.sqrt_eq_zero (by exact_mod_cast jsVarSample_nonneg l mu)]
  exact_mod_cast Iff.rfl

/-- The source's threshold test `Math.abs((v - mu)/sd) >= t` with
`sd = Math.sqrt sd2` agrees with the square-free test `zCondB` whenever
`sd2 > 0` (the only case in which the source evaluates it). -/
theorem zCondB_iff_real (v mu sd2 t : ℚ) (h : 0 < sd2) :
    zCondB v mu sd2 t = true
      ↔ (t : ℝ) ≤ |((v : ℚ) : ℝ) - ((mu : ℚ) : ℝ)| / Real.sqrt ((sd2 : ℚ) : ℝ) := by
  have hs2 : (0:ℝ) < ((sd2 : ℚ) : ℝ) := by exact_mod_cast h
  have hs : (0:ℝ) < Real.sqrt ((sd2 : ℚ) : ℝ) := Real.sqrt_pos.2 hs2
  have hsq : Real.sqrt ((sd2 : ℚ) : ℝ) ^ 2 = ((sd2 : ℚ) : ℝ) := Real.sq_sqrt hs2.le
  unfold zCondB
  split_ifs with ht
  · have htr : ((t : ℚ) : ℝ) ≤ 0 := by exact_mod_cast ht
    constructor
    · intro _
      exact le_trans htr (div_nonneg (abs_nonneg _) hs.le)
    · intro _
      rfl
  · have htr : (0:ℝ) < ((t : ℚ) : ℝ) := by exact_mod_cast not_le.1 ht
    rw [decide_eq_true_eq, le_div_iff₀ hs]
    constructor
    · intro hq
      have hr : ((t : ℚ) : ℝ) ^ 2 * ((sd2 : ℚ) : ℝ)
          ≤ (((v : ℚ) : ℝ) - ((mu : ℚ) : ℝ)) ^ 2 := by exact_mod_cast hq
      nlinarith [abs_nonneg (((v : ℚ) : ℝ) - ((mu : ℚ) : ℝ)),
        sq_abs (((v : ℚ) : ℝ) - ((mu : ℚ) : ℝ)), mul_pos htr hs]
    · intro hr
      have hq : ((t : ℚ) : ℝ) ^ 2 * ((sd2 : ℚ) : ℝ)
          ≤ (((v : ℚ) : ℝ) - ((mu : ℚ) : ℝ)) ^ 2 := by
        nlinarith [sq_abs (((v : ℚ) : ℝ) - ((mu : ℚ) : ℝ)),
          abs_nonneg (((v : ℚ) : ℝ) - ((mu : ℚ) : ℝ)), mul_pos htr hs]
      exact_mod_cast hq

/-- Function `safePctChange` from part_000: `null` (here `none`) whenever the
previous value is falsy (for a number: zero), else the relative change —
division by zero is never attempted. -/
def safePctChange (curr prev : ℚ) : Option ℚ :=
  if prev = 0 then none else some ((curr - prev) / prev)

/-- Read `r[k] || fallback` for a dimension field.  Dimension fields are
strings by construction of the pivot; a missing field or an empty string
is falsy and yields the fallback (any non-string value would be
unreachable here and is mapped to the fallback as well). -/
def jsStrField (r : Record) (k : String) (fallback : String) : String :=
  match jsGet r k with
  | some (.str s) => if s = "" then fallback else s
  | _ => fallback

/-- Read `r[k] || 0` for a metric field.  Metric fields are numbers by
construction of the pivot (`0 || 0` is `0`, so the read is the stored
number); a missing field yields `0`. -/
def jsNumField (r : Record) (k : String) : ℚ :=
  match jsGet r k with
  | some (.num q) => q
  | _ => 0

/-- One side (current or previous) of a `ga_channel_summary_compare`
output row; `sessionKeyEventRate` keeps `r[k] ?? null` verbatim. -/
structure CompareSide where
  sessions : ℚ
  activeUsers : ℚ
  keyEvents : ℚ
  sessionKeyEventRate : Option GAValue
deriving DecidableEq, Repr

/-- One merged `ga_channel_summary_compare` output row. -/
structure MergedRow where
  channel : String
  current : CompareSide
  previous : CompareSide
  deltaSessions : ℚ
  deltaSessionsPct : Option ℚ
deriving DecidableEq, Repr

/-- Key `r.sessionDefaultChannelGroup || "(not set)"`. -/
def channelKey (r : Record) : String :=
  jsStrField r "sessionDefaultChannelGroup" "(not set)"

/-- The entry list fed to `new Map(prev.rows.map(r => [key, r]))`. -/
def prevKeyed (prevRows : List Record) : List (String × Record) :=
  prevRows.map (fun r => (channelKey r, r))

/-- Lookup `Map.get` on a map built from an entry list: the last entry with a
given key wins, as in the JS `Map` constructor. -/
def jsMapGet (pairs : List (String × Record)) (k : String) : Option Record :=
  (pairs.reverse.find? (fun p => p.1 = k)).map Prod.snd

/-- The body of `curr.rows.map(...)` in `ga_channel_summary_compare`:
merge one current-period row against the previous-period lookup
(`prevMap.get(ch) || {}`). -/
def mergeOne (prevPairs : List (String × Record)) (r : Record) : MergedRow :=
  let ch := channelKey r
  let p := (jsMapGet prevPairs ch).getD []
  let cs := jsNumField r "sessions"
  let ps := jsNumField p "sessions"
  { channel := ch
    current := ⟨cs, jsNumField r "activeUsers", jsNumField r "keyEvents",
      jsGet r "sessionKeyEventRate"⟩
    previous := ⟨ps, jsNumField p "activeUsers", jsNumField p "keyEvents",
      jsGet p "sessionKeyEventRate"⟩
    deltaSessions := cs - ps
    deltaSessionsPct := safePctChange cs ps }

/-- Stable insertion of a row into a list sorted descending by current
sessions: the row goes before the first element whose key is not larger,
i.e. after all strictly larger keys and before equal ones coming later in
the input — exactly the placement of a stable descending sort. -/
def insertDescRow (x : MergedRow) : List MergedRow → List MergedRow
  | [] => [x]
  | y :: ys =>
    if y.current.sessions ≤ x.current.sessions then x :: y :: ys
    else y :: insertDescRow x ys

/-- Sort `merged.sort((a, b) => (b.current.sessions || 0) - (a.current.sessions
|| 0))`: JS `Array.prototype.sort` is stable, and with this comparator it
computes the stable descending sort by current sessions, realised here as
a stable insertion sort (`|| 0` on a number is the identity). -/
def sortDescBySessions (l : List MergedRow) : List MergedRow :=
  l.foldr insertDescRow []

/-- The merge-and-sort pipeline of `ga_channel_summary_compare` (before
the final `slice(0, limit)` of the response). -/
def channelCompareMerge (currRows prevRows : List Record) : List MergedRow :=
  sortDescBySessions (currRows.map (mergeOne (prevKeyed prevRows)))

section MergeLemmas

theorem insertDescRow_perm (x : MergedRow) (l : List MergedRow) :
    (insertDescRow x l).Perm (x :: l) := by
  induction l with
  | nil => exact List.Perm.refl _
  | cons y ys ih =>
    unfold insertDescRow
    split_ifs
    · exact List.Perm.refl _
    · exact List.Perm.trans (List.Perm.cons y ih) (List.Perm.swap x y ys)

theorem sortDescBySessions_perm (l : List MergedRow) :
    (sortDescBySessions l).Perm l := by
  induction l with
  | nil => exact List.Perm.refl _
  | cons x xs ih =>
    exact List.Perm.trans (insertDescRow_perm x (sortDescBySessions xs))
      (List.Perm.cons x ih)

theorem insertDescRow_sorted (x : MergedRow) (l : List MergedRow)
    (h : l.Pairwise (fun a b => b.current.sessions ≤ a.current.sessions)) :
    (insertDescRow x l).Pairwise
      (fun a b => b.current.sessions ≤ a.current.sessions) := by
  induction l with
  | nil => simp [insertDescRow]
  | cons y ys ih =>
    rw [List.pairwise_cons] at h
    unfold insertDescRow
    split_ifs with hc
    · refine List.Pairwise.cons ?_ (List.Pairwise.cons h.1 h.2)
      intro b hb
      rcases List.mem_cons.1 hb with rfl | hb
      · exact hc
      · exact le_trans (h.1 b hb) hc
    · refine List.Pairwise.cons ?_ (ih h.2)
      intro b hb
      have hb' : b ∈ x :: ys := (insertDescRow_perm x ys).mem_iff.1 hb
      rcases List.mem_cons.1 hb' with rfl | hb'
      · exact le_of_lt (not_le.1 hc)
      · exact h.1 b hb'

theorem sortDescBySessions_sorted (l : List MergedRow) :
    (sortDescBySessions l).Pairwise
      (fun a b => b.current.sessions ≤ a.current.sessions) := by
  induction l with
  | nil => exact List.Pairwise.nil
  | cons x xs ih => exact insertDescRow_sorted x (sortDescBySessions xs) ih

theorem filter_insertDescRow (x : MergedRow) (l : List MergedRow) (k : ℚ) :
    (insertDescRow x l).filter (fun r => r.current.sessions == k)
      = if x.current.sessions = k
        then x :: l.filter (fun r => r.current.sessions == k)
        else l.filter (fun r => r.current.sessions == k) := by
  induction l with
  | nil =>
    by_cases hx : x.current.sessions = k <;> simp [insertDescRow, hx]
  | cons y ys ih =>
    have hrw : insertDescRow x (y :: ys)
        = if y.current.sessions ≤ x.current.sessions then x :: y :: ys
          else y :: insertDescRow x ys := rfl
    by_cases hc : y.current.sessions ≤ x.current.sessions
    · rw [hrw, if_pos hc]
      by_cases hx : x.current.sessions = k <;> simp [List.filter_cons, hx]
    · rw [hrw, if_neg hc]
      have hxy : x.current.sessions < y.current.sessions := not_le.1 hc
      by_cases hx : x.current.sessions = k
      · have hy : y.current.sessions ≠ k := by
          rw [← hx]
          exact ne_of_gt hxy
        simp [List.filter_cons, hx, hy, ih]
      · by_cases hy : y.current.sessions = k <;>
          simp [List.filter_cons, hx, hy, ih]

theorem sortDescBySessions_filter (l : List MergedRow) (k : ℚ) :
    (sortDescBySessions l).filter (fun r => r.current.sessions == k)
      = l.filter (fun r => r.current.sessions == k) := by
  induction l with
  | nil => rfl
  | cons x xs ih =>
    show (insertDescRow x (sortDescBySessions xs)).filter _ = _
    rw [filter_insertDescRow, List.filter_cons]
    by_cases hx : x.current.sessions = k <;> simp [hx, ih]

end MergeLemmas

/-- C4, packaged: the merge keeps exactly one output row per
current-period group (none dropped, none added), a group whose key has no
previous-period match is merged against the all-zero/null previous
record, the output is sorted descending by the current period's sessions,
and rows with equal session counts keep the order the merge produced them
in (stability, stated as filter-invariance at every key value). -/
def ChannelCompareSpec (currRows prevRows : List Record) : Prop :=
  (channelCompareMerge currRows prevRows).length = currRows.length ∧
  (channelCompareMerge currRows prevRows).Perm
    (currRows.map (mergeOne (prevKeyed prevRows))) ∧
  (∀ r ∈ currRows,
    mergeOne (prevKeyed prevRows) r ∈ channelCompareMerge currRows prevRows) ∧
  (∀ r ∈ currRows, jsMapGet (prevKeyed prevRows) (channelKey r) = none →
    (mergeOne (prevKeyed prevRows) r).previous = ⟨0, 0, 0, none⟩ ∧
    (mergeOne (prevKeyed prevRows) r).deltaSessionsPct
      = safePctChange (jsNumField r "sessions") 0) ∧
  (channelCompareMerge currRows prevRows).Pairwise
    (fun a b => b.current.sessions ≤ a.current.sessions) ∧
  (∀ k : ℚ,
    (channelCompareMerge currRows prevRows).filter
        (fun r => r.current.sessions == k)
      = (currRows.map (mergeOne (prevKeyed prevRows))).filter
        (fun r => r.current.sessions == k))

/-- C4: in the `ga_channel_summary_compare` merge, every current-period
group appears in the output even when no previous-period group shares its
key — such a group is merged against an all-zero/null previous record,
never dropped — and the output is sorted descending by the current
period's sessions with ties kept in input order (stable sort). -/
theorem ga_channel_summary_compare_spec (currRows prevRows : List Record) :
    ChannelCompareSpec currRows prevRows := by
  refine ⟨?_, sortDescBySessions_perm _, ?_, ?_, sortDescBySessions_sorted _, ?_⟩
  · unfold channelCompareMerge
    rw [(sortDescBySessions_perm _).length_eq, List.length_map]
  · intro r hr
    exact (sortDescBySessions_perm _).mem_iff.2
      (List.mem_map_of_mem (mergeOne (prevKeyed prevRows)) hr)
  · intro r _ hnone
    constructor
    · simp [mergeOne, hnone, jsNumField, jsGet]
    · simp [mergeOne, hnone, jsNumField, jsGet]
  · intro k
    exact sortDescBySessions_filter _ k

/-- C5: `safePctChange` returns `(curr - prev)/prev` whenever
`prev ≠ 0`, and `none` whenever `prev = 0` — including the value a
missing previous record's field reads as (`0`), so division by zero is
never attempted. -/
theorem safePctChange_spec (curr prev : ℚ) (h : prev ≠ 0) :
    safePctChange curr prev = some ((curr - prev) / prev) ∧
    safePctChange curr 0 = none ∧
    safePctChange curr (jsNumField [] "sessions") = none := by
  refine ⟨by simp [safePctChange, h], by simp [safePctChange], ?_⟩
  simp [safePctChange, jsNumField, jsGet]

/-- Concrete instantiation of C5 at `curr = 7`, `prev = 5`. -/
theorem safePctChange_spec_witness :
    (5 : ℚ) ≠ 0 ∧
    (safePctChange 7 5 = some ((7 - 5) / 5) ∧
     safePctChange 7 0 = none ∧
     safePctChange 7 (jsNumField [] "sessions") = none) :=
  ⟨by norm_num, safePctChange_spec 7 5 (by norm_num)⟩

/-- One funnel step descriptor as validated by the `ga_funnel_basic`
zod schema (optional fields are `Option`s). -/
structure FunnelStepSpec where
  name : String
  eventName : String
  pageLocationContains : Option String
  isDirectlyFollowedBy : Option Bool
  withinDurationFromPriorStep : Option String
deriving DecidableEq, Repr

/-- The `stringFilter` object built for `pageLocationContains`. -/
structure FunnelStringFilter where
  matchType : String
  value : String
  caseSensitive : Bool
deriving DecidableEq, Repr

/-- The nested `funnelParameterFilter` object. -/
structure FunnelParameterFilter where
  eventParameterName : String
  stringFilter : FunnelStringFilter
deriving DecidableEq, Repr

/-- The `funnelEventFilter` object: the event-name filter, optionally
carrying a nested parameter-filter expression (both must hold for the
backend when present). -/
structure FunnelEventFilter where
  eventName : String
  funnelParameterFilterExpression : Option FunnelParameterFilter
deriving DecidableEq, Repr

/-- One compiled backend funnel step. -/
structure FunnelStep where
  name : String
  isDirectlyFollowedBy : Bool
  withinDurationFromPriorStep : Option String
  filterExpression : FunnelEventFilter
deriving DecidableEq, Repr

/-- The per-step compilation in `ga_funnel_basic` (identical in part_000
and server.mjs): an event-name filter, plus — only when
`s.pageLocationContains` is truthy, so a present-but-empty string adds
nothing — a nested case-insensitive CONTAINS filter on `page_location`;
`isDirectlyFollowedBy` defaults to `false` via `?? false`. -/
def compileFunnelStep (s : FunnelStepSpec) : FunnelStep :=
  { name := s.name
    isDirectlyFollowedBy := s.isDirectlyFollowedBy.getD false
    withinDurationFromPriorStep := s.withinDurationFromPriorStep
    filterExpression :=
      { eventName := s.eventName
        funnelParameterFilterExpression :=
          match s.pageLocationContains with
          | some p =>
            if p = "" then none
            else some ⟨"page_location", ⟨"CONTAINS", p, false⟩⟩
          | none => none } }

/-- The zod constraints on the `steps` argument of `ga_funnel_basic`:
an array of 2 to 10 steps whose `name` and `eventName` are nonempty. -/
def funnelStepsValid (steps : List FunnelStepSpec) : Bool :=
  decide (2 ≤ steps.length) && decide (steps.length ≤ 10) &&
    steps.all (fun s => decide (1 ≤ s.name.length) && decide (1 ≤ s.eventName.length))

/-- Handler `ga_funnel_basic` up to the backend call: schema validation happens
before the handler runs (so before any compilation or backend call);
accepted step lists are compiled step by step. -/
def ga_funnel_basic_steps (steps : List FunnelStepSpec) :
    Except String (List FunnelStep) :=
  if funnelStepsValid steps then .ok (steps.map compileFunnelStep)
  else .error "validation error"

/-- C6 (amended), packaged: a step count outside 2..10 is rejected
before compilation; a step with no optional fields compiles to an
event-name-only filter with `isDirectlyFollowedBy = false`; a step
carrying a *nonempty* `pageLocationContains` additionally gains the
nested case-insensitive CONTAINS filter on `page_location` combined with
the event-name filter. -/
def FunnelSpec (steps : List FunnelStepSpec) (s : FunnelStepSpec)
    (p nm ev : String) : Prop :=
  ga_funnel_basic_steps steps = .error "validation error" ∧
  compileFunnelStep ⟨nm, ev, none, none, none⟩ = ⟨nm, false, none, ⟨ev, none⟩⟩ ∧
  compileFunnelStep s
    = ⟨s.name, s.isDirectlyFollowedBy.getD false, s.withinDurationFromPriorStep,
       ⟨s.eventName, some ⟨"page_location", ⟨"CONTAINS", p, false⟩⟩⟩⟩

/-- C6 (amended): `ga_funnel_basic` rejects any steps array with fewer
than 2 or more than 10 entries before compilation; an accepted step with
no optional fields compiles to an event-name-only filter with
`isDirectlyFollowedBy` defaulting to false; and a step with a nonempty
`pageLocationContains` additionally gains a nested case-insensitive
CONTAINS filter on the `page_location` parameter combined with the
event-name filter (an empty string is falsy in JS and adds no filter —
see the counterexample). -/
theorem ga_funnel_basic_spec (steps : List FunnelStepSpec)
    (s : FunnelStepSpec) (p nm ev : String)
    (h1 : steps.length < 2 ∨ 10 < steps.length)
    (h2 : s.pageLocationContains = some p) (h3 : p ≠ "") :
    FunnelSpec steps s p nm ev := by
  refine ⟨?_, rfl, ?_⟩
  · unfold ga_funnel_basic_steps
    rw [if_neg]
    intro hv
    unfold funnelStepsValid at hv
    simp only [Bool.and_eq_true, decide_eq_true_eq] at hv
    omega
  · simp [compileFunnelStep, h2, h3]

/-- C6 counterexample to the claim as stated: a step *carrying*
`pageLocationContains` with the empty string compiles to an
event-name-only filter — the JS truthiness test `if
(s.pageLocationContains)` skips the nested filter for `""`. -/
theorem ga_funnel_basic_empty_contains_counterexample :
    (compileFunnelStep ⟨"s1", "page_view", some "", none, none⟩).filterExpression
      = ⟨"page_view", none⟩ := rfl

/-- Concrete instantiation of the amended C6: the empty steps array is
rejected, and a step with nonempty `pageLocationContains` gains the
nested filter. -/
theorem ga_funnel_basic_spec_witness :
    ([] : List FunnelStepSpec).length < 2 ∧
    FunnelSpec [] ⟨"a", "b", some "x", none, none⟩ "x" "n" "e" :=
  ⟨by decide,
   ga_funnel_basic_spec [] ⟨"a", "b", some "x", none, none⟩ "x" "n" "e"
     (Or.inl (by decide)) rfl (by decide)⟩

/-- A parsed `/mcp` POST body (server.js): the fields the dispatcher
inspects, each possibly absent.  `paramsName`/`paramsArguments` model
`params?.name` / `params?.arguments` (an absent `params` reads as absent
fields). -/
structure McpRequestBody (Id Args : Type) where
  tool : Option String
  arguments : Option Args
  jsonrpc : Option String
  id : Option Id
  method : Option String
  paramsName : Option String
  paramsArguments : Option Args
deriving DecidableEq, Repr

/-- The response the server.js `/mcp` dispatcher sends, by shape:
`httpError s m` is `res.status(s).json({error: m})`, `flatResult` the
bare tool output of the flat shape, the `rpc*` constructors the JSON-RPC
envelopes (each carrying the echoed request id), and `rpcError` the
`{code, message}` error envelope. -/
inductive McpResponse (Id Out : Type) where
  | httpError (status : ℕ) (errorMsg : String)
  | flatResult (out : Out)
  | rpcInitializeResult (id : Option Id)
  | rpcToolsList (id : Option Id) (names : List String)
  | rpcCallResult (id : Option Id) (out : Out)
  | rpcError (id : Option Id) (code : ℤ) (message : String)
deriving DecidableEq, Repr

/-- The names in the server.js `TOOLS` registry. -/
def toolNames : List String :=
  ["ga_channel_summary", "ga_landing_pages_top", "ga_daily_trend"]

/-- The JSON-RPC part of the server.js dispatcher (reached when
`body.tool` is falsy).  Tool handlers are abstracted by `handlerOut`
(name and arguments to output); `defaultArgs` models the `|| {}`
fallback. -/
def rpcDispatch {Id Args Out : Type} (defaultArgs : Args)
    (handlerOut : String → Args → Out) (body : McpRequestBody Id Args) :
    McpResponse Id Out :=
  if body.jsonrpc ≠ some "2.0" then .httpError 400 "invalid jsonrpc"
  else if body.method = some "initialize" then .rpcInitializeResult body.id
  else if body.method = some "tools/list" then .rpcToolsList body.id toolNames
  else if body.method = some "tools/call" then
    match body.paramsName with
    | some nm =>
      if toolNames.contains nm then
        .rpcCallResult body.id (handlerOut nm (body.paramsArguments.getD defaultArgs))
      else .rpcError body.id (-32601) "tool not found"
    | none => .rpcError body.id (-32601) "tool not found"
  else .rpcError body.id (-32601) "method not found"

/-- The server.js `app.post("/mcp")` dispatcher: the flat shape is taken
when `body.tool` is truthy (present and nonempty), else the JSON-RPC
shape. -/
def handleMcpPost {Id Args Out : Type} (defaultArgs : Args)
    (handlerOut : String → Args → Out) (body : McpRequestBody Id Args) :
    McpResponse Id Out :=
  match body.tool with
  | some nm =>
    if nm ≠ "" then
      if toolNames.contains nm then
        .flatResult (handlerOut nm (body.arguments.getD defaultArgs))
      else .httpError 404 "tool not found"
    else rpcDispatch defaultArgs handlerOut body
  | none => rpcDispatch defaultArgs handlerOut body

/-- C7 (amended), packaged: a flat-shape invocation with a nonempty
unknown tool name yields the 404 not-found error; a JSON-RPC `tools/call`
with an unknown name yields the `-32601` error with the request id echoed
unchanged; and in both shapes the response is independent of the tool
handlers — no handler is executed. -/
def GatewaySpec {Id Args Out : Type} (defaultArgs : Args)
    (h₁ h₂ : String → Args → Out) (nm : String) (args pa : Option Args)
    (jr : Option String) (idv : Option Id) (me pn : Option String) : Prop :=
  handleMcpPost defaultArgs h₁
      (⟨some nm, args, jr, idv, me, pn, pa⟩ : McpRequestBody Id Args)
    = .httpError 404 "tool not found" ∧
  handleMcpPost defaultArgs h₁
      (⟨none, args, some "2.0", idv, some "tools/call", some nm, pa⟩ :
        McpRequestBody Id Args)
    = .rpcError idv (-32601) "tool not found" ∧
  handleMcpPost defaultArgs h₁
      (⟨some nm, args, jr, idv, me, pn, pa⟩ : McpRequestBody Id Args)
    = handleMcpPost defaultArgs h₂
      (⟨some nm, args, jr, idv, me, pn, pa⟩ : McpRequestBody Id Args) ∧
  handleMcpPost defaultArgs h₁
      (⟨none, args, some "2.0", idv, some "tools/call", some nm, pa⟩ :
        McpRequestBody Id Args)
    = handleMcpPost defaultArgs h₂
      (⟨none, args, some "2.0", idv, some "tools/call", some nm, pa⟩ :
        McpRequestBody Id Args)

/-- C7 (amended): an invocation naming an operation outside the registry
resolves to the not-found error in both call shapes — the flat shape
provided the name is nonempty (an empty `tool` is falsy and falls through
to the JSON-RPC decoder, see the counterexample), the JSON-RPC shape with
the request id echoed unchanged — and no tool handler is ever executed
(the response does not depend on the handlers). -/
theorem serverJs_mcp_not_found_spec {Id Args Out : Type} (defaultArgs : Args)
    (h₁ h₂ : String → Args → Out) (nm : String) (args pa : Option Args)
    (jr : Option String) (idv : Option Id) (me pn : Option String)
    (hnm : nm ∉ toolNames) (hne : nm ≠ "") :
    GatewaySpec defaultArgs h₁ h₂ nm args pa jr idv me pn := by
  refine ⟨?_, ?_, ?_, ?_⟩ <;>
    simp [handleMcpPost, rpcDispatch, hne, hnm]

/-- C7 counterexample to the claim as stated: the flat-shape body
`{tool: ""}` names an operation (the empty name) that is not in the
registry, yet the dispatcher answers "invalid jsonrpc" (HTTP 400), not a
not-found error — `if (body.tool)` treats the empty string as falsy and
falls through to the JSON-RPC decoder. -/
theorem serverJs_mcp_empty_tool_counterexample :
    handleMcpPost () (fun _ _ => ())
        (⟨some "", none, none, none, none, none, none⟩ : McpRequestBody ℕ Unit)
      = .httpError 400 "invalid jsonrpc" := rfl

/-- Concrete instantiation of the amended C7 at the unknown name
`"no_such_tool"`, with two distinct handler assignments. -/
theorem serverJs_mcp_not_found_spec_witness :
    "no_such_tool" ∉ toolNames ∧
    GatewaySpec () (fun _ _ => true) (fun _ _ => false) "no_such_tool"
      (none : Option Unit) none (some "2.0") (some (7 : ℕ))
      (some "tools/call") none :=
  ⟨by decide,
   serverJs_mcp_not_found_spec () (fun _ _ => true) (fun _ _ => false)
     "no_such_tool" none none (some "2.0") (some 7) (some "tools/call") none
     (by decide) (by decide)⟩

/-- Function `formatErr` from part_000, on the extracted message string
(`e?.message || String(e)`): messages longer than 800 characters are cut
to their first 800 characters with `"..."` appended. -/
def formatErr (msg : String) : String :=
  if 800 < msg.length then ⟨msg.data.take 800⟩ ++ "..." else msg

/-- An 801-character message. -/
def longMsg : String := ⟨List.replicate 801 'a'⟩

set_option maxRecDepth 8000 in
/-- C8 counterexample to the claim as stated: for a message of 801
characters the returned string has 803 characters — `slice(0, 800) +
"..."` exceeds the claimed 800-character bound by the appended
ellipsis. -/
theorem formatErr_bound_counterexample :
    800 < longMsg.length ∧ (formatErr longMsg).length = 803 := by
  constructor <;> decide

/-- C8 (amended), packaged: an over-long message is truncated to its
first 800 characters plus the three-character ellipsis marker (total
length exactly 803, the first 800 characters preserved), and a message of
at most 800 characters is returned unchanged. -/
def FormatErrSpec (msg msg2 : String) : Prop :=
  formatErr msg = (⟨msg.data.take 800⟩ : String) ++ "..." ∧
  (formatErr msg).length = 803 ∧
  (formatErr msg).data.take 800 = msg.data.take 800 ∧
  formatErr msg2 = msg2

/-- C8 (amended): every error message placed into a failure result by
`formatErr` is bounded: a message exceeding 800 characters is replaced by
its first 800 characters followed by `"..."` — 803 characters in total,
never more — while shorter messages pass through unchanged. -/
theorem formatErr_spec (msg msg2 : String) (h : 800 < msg.length)
    (h2 : msg2.length ≤ 800) : FormatErrSpec msg msg2 := by
  have h1 : formatErr msg = (⟨msg.data.take 800⟩ : String) ++ "..." := by
    unfold formatErr
    rw [if_pos h]
  have hlen : (msg.data.take 800).length = 800 := by
    rw [List.length_take]
    exact min_eq_left (le_of_lt h)
  refine ⟨h1, ?_, ?_, ?_⟩
  · rw [h1]
    show (msg.data.take 800 ++ "...".data).length = 803
    rw [List.length_append, hlen]
    rfl
  · rw [h1]
    show (msg.data.take 800 ++ "...".data).take 800 = msg.data.take 800
    have ht := List.take_left (msg.data.take 800) ("...".data)
    rwa [hlen] at ht
  · unfold formatErr
    rw [if_neg (not_lt.2 h2)]

set_option maxRecDepth 8000 in
/-- Concrete instantiation of the amended C8 at the 801-character message
and a short message. -/
theorem formatErr_spec_witness :
    800 < longMsg.length ∧ ("hi" : String).length ≤ 800 ∧
    FormatErrSpec longMsg "hi" :=
  ⟨by decide, by decide, formatErr_spec longMsg "hi" (by decide) (by decide)⟩

/-- The authentication environment: the two secrets, absent (`none`) or
set; an empty-string value is falsy in every test the sources make. -/
structure AuthEnv where
  pathToken : Option String
  apiKey : Option String
deriving DecidableEq, Repr

/-- The request data `isAuthorized` inspects: the `:token` path parameter
and the `x-api-key` header, each possibly absent. -/
structure AuthReq where
  tokenInPath : Option String
  headerApiKey : Option String
deriving DecidableEq, Repr

/-- JS string truthiness for a possibly-absent string: `undefined` and
`""` are falsy. -/
def jsTruthyStr : Option String → Bool
  | some s => !(s == "")
  | none => false

/-- Function `isAuthorized` from server.mjs: path-token match, then header-key
match, then `!(MCP_PATH_TOKEN || MCP_API_KEY)` — with no secret
configured every request is allowed (fail-open). -/
def isAuthorized_mjs (env : AuthEnv) (req : AuthReq) : Bool :=
  if jsTruthyStr env.pathToken && (req.tokenInPath == env.pathToken) then true
  else if jsTruthyStr env.apiKey && jsTruthyStr req.headerApiKey
      && (req.headerApiKey == env.apiKey) then true
  else !(jsTruthyStr env.pathToken || jsTruthyStr env.apiKey)

/-- Function `isAuthorized` from part_000: with no secret configured every
request is denied (fail-closed), then the same two matches. -/
def isAuthorized_part000 (env : AuthEnv) (req : AuthReq) : Bool :=
  if !jsTruthyStr env.pathToken && !jsTruthyStr env.apiKey then false
  else if jsTruthyStr env.pathToken && (req.tokenInPath == env.pathToken) then true
  else if jsTruthyStr env.apiKey && jsTruthyStr req.headerApiKey
      && (req.headerApiKey == env.apiKey) then true
  else false

/-- C9: with neither `MCP_PATH_TOKEN` nor `MCP_API_KEY` configured, the
server.mjs variant authorizes every request while the part_000 variant
denies every request — the two `isAuthorized` functions are not
equivalent in the no-secret configuration. -/
theorem isAuthorized_no_secret_divergence (req : AuthReq) :
    isAuthorized_mjs ⟨none, none⟩ req = true ∧
    isAuthorized_part000 ⟨none, none⟩ req = false ∧
    isAuthorized_mjs ⟨none, none⟩ req ≠ isAuthorized_part000 ⟨none, none⟩ req := by
  refine ⟨?_, ?_, ?_⟩
  · simp [isAuthorized_mjs, jsTruthyStr]
  · simp [isAuthorized_part000, jsTruthyStr]
  · simp [isAuthorized_mjs, isAuthorized_part000, jsTruthyStr]

/-- One output row of `tool_channel_summary` (server.js). -/
structure ChannelRow where
  channel : String
  sessions : ℚ
  activeUsers : ℚ
deriving DecidableEq, Repr

/-- Read `x || "(not set)"` on a possibly-absent dimension value. -/
def jsOrNotSet (v : Option String) : String :=
  match v with
  | some s => if s = "" then "(not set)" else s
  | none => "(not set)"

/-- Coercion `Number(r.metricValues?.[i]?.value || 0)` from server.js: a missing
or empty raw value is falsy, giving `Number(0) = 0`; otherwise the
abstract `Number` parse `jsNum` (server.js applies no finiteness
guard). -/
def metricNumberAt (jsNum : String → ℚ) (r : GARow) (i : ℕ) : ℚ :=
  match metRawAt r i with
  | none => 0
  | some s => if s = "" then 0 else jsNum s

/-- The `rows` list built by `tool_channel_summary`: channel from the
first dimension value, sessions and active users from the first two
metric values. -/
def tool_channel_summary_rows (jsNum : String → ℚ) (rows : List GARow) :
    List ChannelRow :=
  rows.map (fun r =>
    ⟨jsOrNotSet ((r.dimensionValues.get? 0).join),
     metricNumberAt jsNum r 0,
     metricNumberAt jsNum r 1⟩)

/-- The `totals` reduce of `tool_channel_summary`, folding componentwise
sums from `{sessions: 0, activeUsers: 0}`. -/
def tool_channel_summary_totals (rows : List ChannelRow) : ℚ × ℚ :=
  rows.foldl (fun acc cur => (acc.1 + cur.sessions, acc.2 + cur.activeUsers)) (0, 0)

theorem tool_channel_summary_totals_eq (rows : List ChannelRow) :
    tool_channel_summary_totals rows
      = ((rows.map ChannelRow.sessions).sum,
         (rows.map ChannelRow.activeUsers).sum) := by
  unfold tool_channel_summary_totals
  suffices h : ∀ a b : ℚ,
      rows.foldl (fun acc cur => (acc.1 + cur.sessions, acc.2 + cur.activeUsers)) (a, b)
        = (a + (rows.map ChannelRow.sessions).sum,
           b + (rows.map ChannelRow.activeUsers).sum) by
    simpa using h 0 0
  induction rows with
  | nil => intro a b; simp
  | cons x xs ih =>
    intro a b
    simp [List.foldl_cons, ih, add_assoc]

/-- C10: in `tool_channel_summary`, for every backend response the
returned totals equal the componentwise sums over the returned rows —
`totals.sessions` is the sum of the rows' sessions and
`totals.activeUsers` the sum of the rows' active users — and the empty
response yields `(0, 0)`. -/
theorem tool_channel_summary_totals_spec (jsNum : String → ℚ)
    (garows : List GARow) :
    tool_channel_summary_totals (tool_channel_summary_rows jsNum garows)
      = (((tool_channel_summary_rows jsNum garows).map ChannelRow.sessions).sum,
         ((tool_channel_summary_rows jsNum garows).map ChannelRow.activeUsers).sum) ∧
    tool_channel_summary_totals (tool_channel_summary_rows jsNum []) = (0, 0) :=
  ⟨tool_channel_summary_totals_eq _, rfl⟩
